import Mathlib

/-!
Shallow embedding of the sensor-io repository (Rust).

The repository stores a raw sensor image as a two-dimensional matrix of
unsigned integer pixels and offers:
  - `NARaw` (src/naraw.rs, embedded in namespace `naraw`), backed by a
    nalgebra dense matrix;
  - `NDRaw` (src/ndraw.rs, embedded in namespace `ndraw`), backed by an
    ndarray 2-d array;
  - an older `NARaw` revision declared inside `pub mod sensor_io` of
    src/lib.rs (embedded here in namespace `librs`).

Modelling conventions:
  - The generic element type `T` (instantiated at `u16` throughout the
    repository's tests) is modelled as `Nat`; the fallible narrowing
    `to_u16()` is modelled by `to_u16 : Nat -> Option Nat`.
  - A matrix is modelled by its list of rows (entry `(y, x)` of the Rust
    matrix is element `x` of row `y`); the Rust index operation
    `data[(y, x)]`, which panics out of bounds, is modelled by an
    `Option`-valued `get`.
  - Rust panics (`unwrap`, `expect`, out-of-bounds indexing) are modelled
    by `none`; file I/O is modelled by passing the byte stream
    (a `List Nat` of byte values) explicitly.
-/

/-- Build the list `[f 0, f 1, ..., f (n-1)]`. -/
def tab {α : Type} : Nat → (Nat → α) → List α
  | 0, _ => []
  | n + 1, f => f 0 :: tab n (fun i => f (i + 1))

/-- Build `[f 0, ..., f (n-1)]` in the `Option` monad, propagating failure
(this models a Rust loop whose body may panic). -/
def optTab {α : Type} : Nat → (Nat → Option α) → Option (List α)
  | 0, _ => some []
  | n + 1, f => (f 0).bind fun a => (optTab n (fun i => f (i + 1))).map fun l => a :: l

/-- Little-endian byte pair of a value already reduced below 2^16, as
written by `write_u16::<LittleEndian>`. -/
def u16Bytes (n : Nat) : List Nat := [n % 256, n / 256 % 256]

/-- Model of `read_u16::<LittleEndian>` on a byte stream: two bytes give a
value, a shorter stream makes the `unwrap` panic (`none`). -/
def readU16 : List Nat → Option (Nat × List Nat)
  | b0 :: b1 :: rest => some (b0 + 256 * b1, rest)
  | _ => none

/-- Model of `to_u16()` from num-traits: succeeds exactly on values below
2^16. -/
def to_u16 (n : Nat) : Option Nat := if n < 65536 then some n else none

/-- Read `n` consecutive little-endian u16 pixels (the inner `x` loop of
`new_from_binimage`). -/
def readPixels : Nat → List Nat → Option (List Nat × List Nat)
  | 0, bs => some ([], bs)
  | n + 1, bs =>
    (readU16 bs).bind fun p =>
      (readPixels n p.2).map fun q => (p.1 :: q.1, q.2)

/-- Read `h` rows of `w` little-endian u16 pixels each (the nested loops of
`new_from_binimage`). -/
def readRows : Nat → Nat → List Nat → Option (List (List Nat) × List Nat)
  | 0, _, bs => some ([], bs)
  | h + 1, w, bs =>
    (readPixels w bs).bind fun p =>
      (readRows h w p.2).map fun q => (p.1 :: q.1, q.2)

/-- Byte image of a list of pixel rows: every pixel as a little-endian u16
pair, row-major (the raster part of `write_binimage`). -/
def pixelBytes (rs : List (List Nat)) : List Nat :=
  (rs.map (fun row => (row.map u16Bytes).flatten)).flatten

namespace naraw

/-- Model of `nalgebra::DMatrix<T>`: dimensions plus the list of rows
(entry `(y, x)` is element `x` of row `y`). -/
structure DMatrix where
  nrows : Nat
  ncols : Nat
  rows : List (List Nat)
deriving DecidableEq, Repr

/-- Well-formedness invariant every matrix built by the Rust library
satisfies: `nrows` rows, each of length `ncols`. -/
def DMatrix.WF (m : DMatrix) : Prop :=
  m.rows.length = m.nrows ∧ ∀ r ∈ m.rows, r.length = m.ncols

instance (m : DMatrix) : Decidable m.WF := by
  unfold DMatrix.WF; infer_instance

/-- Model of the index operation `data[(y, x)]` (panics out of bounds, hence
`Option`). -/
def DMatrix.get (m : DMatrix) (y x : Nat) : Option Nat :=
  (m.rows.get? y).bind fun r => r.get? x

/-- Model of `nalgebra::DMatrix::<T>::zeros(nrows, ncols)`. -/
def DMatrix.zeros (nrows ncols : Nat) : DMatrix :=
  ⟨nrows, ncols, List.replicate nrows (List.replicate ncols 0)⟩

/-- Model of `nalgebra::DMatrix::<T>::from_fn(nrows, ncols, f)` for a total
closure. -/
def DMatrix.from_fn (nrows ncols : Nat) (f : Nat → Nat → Nat) : DMatrix :=
  ⟨nrows, ncols, tab nrows (fun y => tab ncols (fun x => f y x))⟩

/-- Model of `nalgebra::DMatrix::<T>::from_fn(nrows, ncols, f)` for a
closure that may panic (the panic propagates). -/
def DMatrix.from_fnM (nrows ncols : Nat) (f : Nat → Nat → Option Nat) : Option DMatrix :=
  (optTab nrows (fun y => optTab ncols (fun x => f y x))).map fun rs => ⟨nrows, ncols, rs⟩

/-- Model of `NARaw<T>` from src/naraw.rs. -/
structure NARaw where
  data : DMatrix
deriving DecidableEq, Repr

/-- Model of `NARaw::new(width, height)`: a zero-filled `height x width`
matrix, with no validation of the dimensions. -/
def NARaw.new (width height : Nat) : NARaw := ⟨DMatrix.zeros height width⟩

/-- Model of `NARaw::width()`. -/
def NARaw.width (r : NARaw) : Nat := r.data.ncols

/-- Model of `NARaw::height()`. -/
def NARaw.height (r : NARaw) : Nat := r.data.nrows

/-- Model of `NARaw::pix(x, y)`, reading `self.data[(y, x)]` (panics out of
bounds). -/
def NARaw.pix (r : NARaw) (x y : Nat) : Option Nat := r.data.get y x

/-- Well-formed buffer (what the Rust type invariantly guarantees). -/
def NARaw.WF (r : NARaw) : Prop := r.data.WF

instance (r : NARaw) : Decidable r.WF := by
  unfold NARaw.WF; infer_instance

/-- Model of `NARaw::convert_vector2d_to_dmatrix`: `from_fn(vec2d.len(),
vec2d[0].len(), |y, x| vec2d[y][x])`; indexing `vec2d[0]` on an empty input
or `vec2d[y][x]` past a row's end panics. -/
def NARaw.convert_vector2d_to_dmatrix (vec2d : List (List Nat)) : Option DMatrix :=
  (vec2d.get? 0).bind fun r0 =>
    DMatrix.from_fnM vec2d.length r0.length
      (fun y x => (vec2d.get? y).bind fun r => r.get? x)

/-- Model of `NARaw::new_from_vector2d`. -/
def NARaw.new_from_vector2d (vec2d : List (List Nat)) : Option NARaw :=
  (NARaw.convert_vector2d_to_dmatrix vec2d).map NARaw.mk

/-- Model of `NARaw::write_binimage`: header `width as u16`, `height as u16`
(little endian, wrapping casts), then each pixel `to_u16().unwrap()` little
endian, row-major. -/
def NARaw.write_binimage (r : NARaw) : Option (List Nat) :=
  (optTab r.height (fun y => optTab r.width (fun x => (r.data.get y x).bind to_u16))).map
    fun rs =>
      u16Bytes (r.width % 65536) ++ u16Bytes (r.height % 65536) ++ pixelBytes rs

/-- Model of `NARaw::new_from_binimage`: read the u16 header (width then
height), then `height * width` u16 pixels row-major. -/
def NARaw.new_from_binimage (bytes : List Nat) : Option NARaw :=
  (readU16 bytes).bind fun pw =>
    (readU16 pw.2).bind fun ph =>
      (readRows ph.1 pw.1 ph.2).map fun q => ⟨⟨ph.1, pw.1, q.1⟩⟩

end naraw

namespace ndraw

/-- Interpretation of a flat row-major vector as `h` rows of `w` entries
(how `ndarray::Array2::from_shape_vec((h, w), v)` lays the data out). -/
def reshapeRows : Nat → Nat → List Nat → List (List Nat)
  | 0, _, _ => []
  | h + 1, w, v => v.take w :: reshapeRows h w (v.drop w)

/-- Model of `ndarray::Array2<T>`: dimensions plus the list of rows
(entry `[[y, x]]` is element `x` of row `y`). -/
structure Array2 where
  nrows : Nat
  ncols : Nat
  rows : List (List Nat)
deriving DecidableEq, Repr

/-- Well-formedness invariant every array built by the Rust library
satisfies: `nrows` rows, each of length `ncols`. -/
def Array2.WF (a : Array2) : Prop :=
  a.rows.length = a.nrows ∧ ∀ r ∈ a.rows, r.length = a.ncols

instance (a : Array2) : Decidable a.WF := by
  unfold Array2.WF; infer_instance

/-- Model of the index operation `data[[y, x]]` (panics out of bounds). -/
def Array2.get (a : Array2) (y x : Nat) : Option Nat :=
  (a.rows.get? y).bind fun r => r.get? x

/-- Model of `ndarray::Array2::<T>::zeros((nrows, ncols))`. -/
def Array2.zeros (nrows ncols : Nat) : Array2 :=
  ⟨nrows, ncols, List.replicate nrows (List.replicate ncols 0)⟩

/-- Model of `ndarray::Array2::from_shape_vec((nrows, ncols), v)`: errors
(`Err`) exactly when the vector length does not match the shape. -/
def Array2.from_shape_vec (nrows ncols : Nat) (v : List Nat) : Option Array2 :=
  if v.length = nrows * ncols then some ⟨nrows, ncols, reshapeRows nrows ncols v⟩ else none

/-- Model of `NDRaw<T>` from src/ndraw.rs. -/
structure NDRaw where
  data : Array2
deriving DecidableEq, Repr

/-- Model of `NDRaw::new(width, height)`: a zero-filled `height x width`
array, with no validation of the dimensions. -/
def NDRaw.new (width height : Nat) : NDRaw := ⟨Array2.zeros height width⟩

/-- Model of `NDRaw::width()`. -/
def NDRaw.width (r : NDRaw) : Nat := r.data.ncols

/-- Model of `NDRaw::height()`. -/
def NDRaw.height (r : NDRaw) : Nat := r.data.nrows

/-- Model of `NDRaw::pix(x, y)`, reading `self.data[[y, x]]` (panics out of
bounds). -/
def NDRaw.pix (r : NDRaw) (x y : Nat) : Option Nat := r.data.get y x

/-- Well-formed buffer (what the Rust type invariantly guarantees). -/
def NDRaw.WF (r : NDRaw) : Prop := r.data.WF

instance (r : NDRaw) : Decidable r.WF := by
  unfold NDRaw.WF; infer_instance

/-- Model of `NDRaw::convert_vector2d_to_vector1d`: concatenate the rows. -/
def NDRaw.convert_vector2d_to_vector1d (vec2d : List (List Nat)) : List Nat :=
  vec2d.flatten

/-- Model of `NDRaw::convert_vector1d_to_ndarray`: `from_shape_vec((height,
width), vec1d).unwrap()`; the `unwrap` panics when the length mismatches. -/
def NDRaw.convert_vector1d_to_ndarray (vec1d : List Nat) (width height : Nat) : Option Array2 :=
  Array2.from_shape_vec height width vec1d

/-- Model of `NDRaw::new_from_vector2d`: flatten, then reshape using
`vec2d[0].len()` as the width (indexing `vec2d[0]` panics on empty input). -/
def NDRaw.new_from_vector2d (vec2d : List (List Nat)) : Option NDRaw :=
  (vec2d.get? 0).bind fun r0 =>
    (NDRaw.convert_vector1d_to_ndarray
        (NDRaw.convert_vector2d_to_vector1d vec2d) r0.length vec2d.length).map NDRaw.mk

/-- Model of `NDRaw::write_binimage` (same loop as the `NARaw` version). -/
def NDRaw.write_binimage (r : NDRaw) : Option (List Nat) :=
  (optTab r.height (fun y => optTab r.width (fun x => (r.data.get y x).bind to_u16))).map
    fun rs =>
      u16Bytes (r.width % 65536) ++ u16Bytes (r.height % 65536) ++ pixelBytes rs

/-- Model of `NDRaw::new_from_binimage` (same loop as the `NARaw`
version). -/
def NDRaw.new_from_binimage (bytes : List Nat) : Option NDRaw :=
  (readU16 bytes).bind fun pw =>
    (readU16 pw.2).bind fun ph =>
      (readRows ph.1 pw.1 ph.2).map fun q => ⟨⟨ph.1, pw.1, q.1⟩⟩

end ndraw

/-- Model of a decoded RGB image (`image::DynamicImage` seen through
`GenericImageView`): `pixel x y` is the `(R, G, B)` channel triple returned
by `get_pixel(x, y)` at channel indices 0, 1, 2. -/
structure RgbImage where
  width : Nat
  height : Nat
  pixel : Nat → Nat → Nat × Nat × Nat

/-- Model of `NARaw::convert_rgb_to_bayer` from src/naraw.rs (the
diagonal-green parity rule): green when `x % 2 != y % 2`, else red when
`x % 2 == 0`, else blue. -/
def naraw.NARaw.convert_rgb_to_bayer (img : RgbImage) (x y : Nat) : Nat :=
  if x % 2 ≠ y % 2 then (img.pixel x y).2.1
  else if x % 2 = 0 then (img.pixel x y).1
  else (img.pixel x y).2.2

namespace librs

/-- Model of the older `NARaw<T>` revision declared in `pub mod sensor_io`
of src/lib.rs (also backed by a nalgebra dense matrix). -/
structure NARaw where
  data : naraw.DMatrix
deriving DecidableEq, Repr

/-- Model of lib.rs `NARaw::new(width, height)`. -/
def NARaw.new (width height : Nat) : NARaw := ⟨naraw.DMatrix.zeros height width⟩

/-- Model of lib.rs `NARaw::width()`. -/
def NARaw.width (r : NARaw) : Nat := r.data.ncols

/-- Model of lib.rs `NARaw::height()`. -/
def NARaw.height (r : NARaw) : Nat := r.data.nrows

/-- Model of lib.rs `NARaw::pix(x, y)`, reading `self.data.column(x)[y]`,
i.e. entry `(y, x)` (panics out of bounds). -/
def NARaw.pix (r : NARaw) (x y : Nat) : Option Nat := r.data.get y x

/-- Model of lib.rs `NARaw::convert_rgb_to_bayer` (the RGGB by-quadrant
rule): classify by `(y mod 2, x mod 2)`; (even, even) red, (even, odd)
green, (odd, even) green, (odd, odd) blue. -/
def NARaw.convert_rgb_to_bayer (img : RgbImage) (x y : Nat) : Nat :=
  if y % 2 = 0 then
    if x % 2 = 0 then (img.pixel x y).1
    else (img.pixel x y).2.1
  else
    if x % 2 = 0 then (img.pixel x y).2.1
    else (img.pixel x y).2.2

/-- Model of lib.rs `NARaw::convert_rgb_to_dmatrix`:
`from_fn(img.height(), img.width(), |y, x| convert_rgb_to_bayer(img, x, y))`. -/
def NARaw.convert_rgb_to_dmatrix (img : RgbImage) : naraw.DMatrix :=
  naraw.DMatrix.from_fn img.height img.width
    (fun y x => NARaw.convert_rgb_to_bayer img x y)

/-- Model of lib.rs `NARaw::new_from_rgbimage`, with the external image
decoding (`image::open`) abstracted into the already decoded `RgbImage`. -/
def NARaw.new_from_rgbimage (img : RgbImage) : NARaw :=
  ⟨NARaw.convert_rgb_to_dmatrix img⟩

end librs

/-- The uniform RGB test image of C4: every pixel has channel values
(R, G, B) = (10, 20, 30). -/
def uniformImg (w h : Nat) : RgbImage := ⟨w, h, fun _ _ => (10, 20, 30)⟩

/-- Observable equivalence of an NARaw and an NDRaw buffer: same width,
same height, same pixel reads everywhere, same encoded byte stream. -/
def EquivRaw (a : naraw.NARaw) (b : ndraw.NDRaw) : Prop :=
  a.width = b.width ∧ a.height = b.height ∧ (∀ x y, a.pix x y = b.pix x y) ∧
    a.write_binimage = b.write_binimage

/-- Observable equivalence of results of operations that may panic: both
panic, or both succeed with observably equivalent buffers. -/
def EquivRawO : Option naraw.NARaw → Option ndraw.NDRaw → Prop
  | none, none => True
  | some a, some b => EquivRaw a b
  | _, _ => False

/-! Basic facts about the loop combinators. -/

theorem tab_length {α : Type} (n : Nat) (f : Nat → α) : (tab n f).length = n := by
  induction n generalizing f with
  | zero => rfl
  | succ n ih => simp [tab, ih]

theorem tab_get? {α : Type} (n : Nat) (f : Nat → α) (i : Nat) :
    (tab n f).get? i = if i < n then some (f i) else none := by
  induction n generalizing f i with
  | zero => simp [tab]
  | succ n ih =>
    cases i with
    | zero => simp [tab]
    | succ i =>
      show (tab n fun j => f (j + 1)).get? i = _
      rw [ih]
      simp [Nat.succ_lt_succ_iff]

theorem optTab_congr {α : Type} (n : Nat) (f g : Nat → Option α)
    (h : ∀ i, i < n → f i = g i) : optTab n f = optTab n g := by
  induction n generalizing f g with
  | zero => rfl
  | succ n ih =>
    simp only [optTab]
    rw [h 0 (Nat.succ_pos n),
      ih (fun i => f (i + 1)) (fun i => g (i + 1))
        (fun i hi => h (i + 1) (Nat.succ_lt_succ hi))]

theorem optTab_get? {α : Type} (l : List α) : optTab l.length l.get? = some l := by
  induction l with
  | nil => rfl
  | cons a l ih =>
    have h1 : (fun i => (a :: l).get? (i + 1)) = l.get? := funext fun i => rfl
    simp only [List.length_cons, optTab, h1, List.get?_cons_zero, ih]
    rfl

theorem optTab_of_eq_get? {α : Type} (n : Nat) (f : Nat → Option α) (l : List α)
    (hn : l.length = n) (h : ∀ i, i < n → f i = l.get? i) : optTab n f = some l := by
  subst hn
  exact (optTab_congr _ _ _ h).trans (optTab_get? l)

theorem get?_of_lt {α : Type} (l : List α) (i : Nat) (h : i < l.length) :
    ∃ v, l.get? i = some v ∧ v ∈ l := by
  cases hl : l.get? i with
  | none => exact absurd (List.get?_eq_none.mp hl) (by omega)
  | some v => exact ⟨v, rfl, List.get?_mem hl⟩

/-! Facts about the byte-level codec helpers. -/

theorem readU16_u16Bytes (n : Nat) (h : n < 65536) (rest : List Nat) :
    readU16 (u16Bytes n ++ rest) = some (n, rest) := by
  have h2 : n / 256 < 256 := by omega
  simp [u16Bytes, readU16, Nat.mod_eq_of_lt h2, Nat.mod_add_div]

theorem readPixels_append (r : List Nat) (hb : ∀ v ∈ r, v < 65536) (rest : List Nat) :
    readPixels r.length ((r.map u16Bytes).flatten ++ rest) = some (r, rest) := by
  induction r with
  | nil => rfl
  | cons v vs ih =>
    simp only [List.map_cons, List.flatten_cons, List.length_cons, readPixels,
      List.append_assoc]
    rw [readU16_u16Bytes v (hb v (by simp)) _]
    simp only [Option.some_bind]
    rw [ih (fun u hu => hb u (by simp [hu]))]
    rfl

theorem readRows_append (rows : List (List Nat)) (w : Nat)
    (hrect : ∀ r ∈ rows, r.length = w)
    (hb : ∀ r ∈ rows, ∀ v ∈ r, v < 65536) (rest : List Nat) :
    readRows rows.length w (pixelBytes rows ++ rest) = some (rows, rest) := by
  induction rows with
  | nil => rfl
  | cons r rs ih =>
    simp only [pixelBytes, List.map_cons, List.flatten_cons, List.length_cons, readRows,
      List.append_assoc]
    have h1 := readPixels_append r (hb r (by simp)) ((pixelBytes rs) ++ rest)
    rw [hrect r (by simp)] at h1
    simp only [pixelBytes] at h1
    rw [h1]
    simp only [Option.some_bind]
    have ih2 := ih (fun u hu => hrect u (by simp [hu])) (fun u hu => hb u (by simp [hu]))
    simp only [pixelBytes] at ih2
    rw [ih2]
    rfl

/-! The encoder output of a well-formed buffer, and the lossless round trip
when the dimensions fit the 16-bit header. -/

theorem naraw_write_binimage_eq (r : naraw.NARaw)
    (hwf : r.WF) (hb : ∀ row ∈ r.data.rows, ∀ v ∈ row, v < 65536) :
    r.write_binimage =
      some (u16Bytes (r.width % 65536) ++ u16Bytes (r.height % 65536) ++
        pixelBytes r.data.rows) := by
  obtain ⟨hlen, hrect⟩ := hwf
  have hopt : optTab r.height
      (fun y => optTab r.width (fun x => (r.data.get y x).bind to_u16)) =
      some r.data.rows := by
    apply optTab_of_eq_get? _ _ _ hlen
    intro y hy
    obtain ⟨row, hrow, hmem⟩ := get?_of_lt r.data.rows y (by rw [hlen]; exact hy)
    rw [hrow]
    have hinner : optTab r.width (fun x => (r.data.get y x).bind to_u16) = some row := by
      apply optTab_of_eq_get? _ _ _ (hrect row hmem)
      intro x hx
      obtain ⟨v, hv, hvm⟩ := get?_of_lt row x (by rw [hrect row hmem]; exact hx)
      show (r.data.get y x).bind to_u16 = _
      rw [show r.data.get y x = (r.data.rows.get? y).bind fun t => t.get? x from rfl,
        hrow]
      simp only [Option.some_bind, hv, to_u16, if_pos (hb row hmem v hvm)]
    exact hinner
  unfold naraw.NARaw.write_binimage
  rw [hopt]
  rfl

/-- The NDRaw encoder behaves identically (its body is the same loop); the
proof transfers the NARaw result across the definitionally equal
structures. -/
theorem ndraw_write_binimage_eq (r : ndraw.NDRaw)
    (hwf : r.WF) (hb : ∀ row ∈ r.data.rows, ∀ v ∈ row, v < 65536) :
    r.write_binimage =
      some (u16Bytes (r.width % 65536) ++ u16Bytes (r.height % 65536) ++
        pixelBytes r.data.rows) :=
  naraw_write_binimage_eq ⟨⟨r.data.nrows, r.data.ncols, r.data.rows⟩⟩ hwf hb

theorem naraw.NARaw.read_write (r : naraw.NARaw)
    (hwf : r.WF) (hb : ∀ row ∈ r.data.rows, ∀ v ∈ row, v < 65536)
    (hw : r.width < 65536) (hh : r.height < 65536) :
    r.write_binimage.bind naraw.NARaw.new_from_binimage = some r := by
  rw [naraw_write_binimage_eq r hwf hb, Nat.mod_eq_of_lt hw, Nat.mod_eq_of_lt hh]
  simp only [Option.some_bind]
  unfold naraw.NARaw.new_from_binimage
  rw [List.append_assoc, readU16_u16Bytes _ hw _]
  simp only [Option.some_bind]
  rw [readU16_u16Bytes _ hh _]
  simp only [Option.some_bind]
  have hrr := readRows_append r.data.rows r.width hwf.2 hb []
  rw [List.append_nil, hwf.1] at hrr
  simp only [naraw.NARaw.height, naraw.NARaw.width] at hrr ⊢
  rw [hrr]
  rfl

/-- C1 (corrected): lossless round trip of the binary codec. For every
well-formed buffer whose element values all fit in 16 bits and whose width
and height also fit in the 16-bit header fields, decoding the encoding
(`new_from_binimage` applied to the bytes produced by `write_binimage`)
yields a buffer with the same width, the same height and the same value at
every pixel. (As literally stated, without the bound on the dimensions,
the claim fails: the header wraps the dimensions modulo 2^16 — see the
counterexample.) -/
theorem c1_round_trip (b : naraw.NARaw) (hwf : b.WF)
    (hb : ∀ row ∈ b.data.rows, ∀ v ∈ row, v < 65536)
    (hw : b.width < 65536) (hh : b.height < 65536) :
    ∃ bs b2, b.write_binimage = some bs ∧
      naraw.NARaw.new_from_binimage bs = some b2 ∧
      b2.width = b.width ∧ b2.height = b.height ∧ ∀ x y, b2.pix x y = b.pix x y := by
  have h := naraw.NARaw.read_write b hwf hb hw hh
  cases henc : b.write_binimage with
  | none => rw [henc] at h; simp at h
  | some bs =>
    rw [henc] at h
    simp only [Option.some_bind] at h
    exact ⟨bs, b, rfl, h, rfl, rfl, fun x y => rfl⟩

/-- Witness for C1 at the concrete 2x2 buffer with rows [[1,2],[3,4]]. -/
theorem c1_round_trip_witness :
    ∃ bs b2, (naraw.NARaw.mk ⟨2, 2, [[1, 2], [3, 4]]⟩).write_binimage = some bs ∧
      naraw.NARaw.new_from_binimage bs = some b2 ∧
      b2.width = (naraw.NARaw.mk ⟨2, 2, [[1, 2], [3, 4]]⟩).width ∧
      b2.height = (naraw.NARaw.mk ⟨2, 2, [[1, 2], [3, 4]]⟩).height ∧
      ∀ x y, b2.pix x y = (naraw.NARaw.mk ⟨2, 2, [[1, 2], [3, 4]]⟩).pix x y :=
  c1_round_trip ⟨⟨2, 2, [[1, 2], [3, 4]]⟩⟩ (by decide) (by decide) (by decide) (by decide)

/-- Counterexample to C1 as literally stated: the buffer `new(65536, 0)`
has every element value below 2^16 (vacuously), its encoding succeeds, but
the decoded buffer's width is 0, not 65536, because the header stores
`width as u16`. -/
theorem c1_counterexample :
    (∀ row ∈ (naraw.NARaw.new 65536 0).data.rows, ∀ v ∈ row, v < 65536) ∧
    ∃ bs b2, (naraw.NARaw.new 65536 0).write_binimage = some bs ∧
      naraw.NARaw.new_from_binimage bs = some b2 ∧
      b2.width ≠ (naraw.NARaw.new 65536 0).width :=
  ⟨by decide, [0, 0, 0, 0], ⟨⟨0, 0, []⟩⟩, by decide, by decide, by decide⟩

/-- C6: the code does not reject ragged nested input with a typed
InvalidDimensions error. The NARaw implementation panics on a row shorter
than the first (modelled `none`) and silently truncates a longer row; the
NDRaw implementation panics on a length mismatch of the flattened data, or
even silently reshapes the input when the total length happens to match
`height * width`. -/
theorem c6_ragged_behavior :
    naraw.NARaw.new_from_vector2d [[1, 2], [3]] = none ∧
    ndraw.NDRaw.new_from_vector2d [[1, 2], [3]] = none ∧
    naraw.NARaw.new_from_vector2d [[1, 2, 3], [4, 5, 6, 7]] =
      some ⟨⟨2, 3, [[1, 2, 3], [4, 5, 6]]⟩⟩ ∧
    ndraw.NDRaw.new_from_vector2d [[1, 2, 3], [4, 5], [6, 7, 8, 9]] =
      some ⟨⟨3, 3, [[1, 2, 3], [4, 5, 6], [7, 8, 9]]⟩⟩ := by decide

/-- C7: the size constructor `new` performs no dimension validation at all;
with a zero width or height it returns an ordinary buffer with those
dimensions instead of failing with an InvalidDimensions error (the code has
no error path). -/
theorem c7_zero_dims_accepted :
    (naraw.NARaw.new 0 5).width = 0 ∧ (naraw.NARaw.new 0 5).height = 5 ∧
    (naraw.NARaw.new 7 0).width = 7 ∧ (naraw.NARaw.new 7 0).height = 0 ∧
    (ndraw.NDRaw.new 0 5).width = 0 ∧ (ndraw.NDRaw.new 0 5).height = 5 ∧
    (ndraw.NDRaw.new 7 0).width = 7 ∧ (ndraw.NDRaw.new 7 0).height = 0 := by decide

/-- C8: encoding the 3-row-by-4-column buffer built from
[[0,1,2,3],[4,5,6,7],[8,9,10,11]] produces exactly 28 bytes starting with
the header 04 00 03 00 (width 4 then height 3, little endian), followed by
the 12 pixel values as 16-bit little-endian words row-major, and decoding
that stream reproduces the same buffer. -/
theorem c8_three_by_four :
    ∃ b, naraw.NARaw.new_from_vector2d [[0, 1, 2, 3], [4, 5, 6, 7], [8, 9, 10, 11]] =
        some b ∧
      b.write_binimage = some [4, 0, 3, 0,
        0, 0, 1, 0, 2, 0, 3, 0,
        4, 0, 5, 0, 6, 0, 7, 0,
        8, 0, 9, 0, 10, 0, 11, 0] ∧
      ([4, 0, 3, 0,
        0, 0, 1, 0, 2, 0, 3, 0,
        4, 0, 5, 0, 6, 0, 7, 0,
        8, 0, 9, 0, 10, 0, 11, 0] : List Nat).length = 28 ∧
      naraw.NARaw.new_from_binimage [4, 0, 3, 0,
        0, 0, 1, 0, 2, 0, 3, 0,
        4, 0, 5, 0, 6, 0, 7, 0,
        8, 0, 9, 0, 10, 0, 11, 0] = some b :=
  ⟨⟨⟨3, 4, [[0, 1, 2, 3], [4, 5, 6, 7], [8, 9, 10, 11]]⟩⟩,
    by decide, by decide, by decide, by decide⟩

/-- C9: `write_binimage` (in both implementations) converts the dimensions
to the header fields with a wrapping `as u16` cast: for every well-formed
buffer with 16-bit pixel values it succeeds and writes `width mod 2^16` and
`height mod 2^16`, and there is a buffer with width above 65535 (all pixels
fitting 16 bits) whose encoding succeeds but whose round trip does not
restore the width. -/
theorem c9_wrapping_header :
    (∀ r : naraw.NARaw, r.WF → (∀ row ∈ r.data.rows, ∀ v ∈ row, v < 65536) →
      ∃ rest, r.write_binimage =
        some (u16Bytes (r.width % 65536) ++ u16Bytes (r.height % 65536) ++ rest)) ∧
    (∀ r : ndraw.NDRaw, r.WF → (∀ row ∈ r.data.rows, ∀ v ∈ row, v < 65536) →
      ∃ rest, r.write_binimage =
        some (u16Bytes (r.width % 65536) ++ u16Bytes (r.height % 65536) ++ rest)) ∧
    ∃ r : naraw.NARaw, 65535 < r.width ∧ r.WF ∧
      (∀ row ∈ r.data.rows, ∀ v ∈ row, v < 65536) ∧
      ∃ bs b2, r.write_binimage = some bs ∧
        naraw.NARaw.new_from_binimage bs = some b2 ∧ b2.width ≠ r.width := by
  refine ⟨?_, ?_, ?_⟩
  · intro r hwf hb
    exact ⟨pixelBytes r.data.rows, naraw_write_binimage_eq r hwf hb⟩
  · intro r hwf hb
    exact ⟨pixelBytes r.data.rows, ndraw_write_binimage_eq r hwf hb⟩
  · exact ⟨naraw.NARaw.new 65536 0, by decide, by decide, by decide,
      [0, 0, 0, 0], ⟨⟨0, 0, []⟩⟩, by decide, by decide, by decide⟩

/-- Witness for the universal part of C9 at a concrete 1x2 buffer. -/
theorem c9_wrapping_header_witness :
    ∃ rest, (naraw.NARaw.mk ⟨1, 2, [[7, 8]]⟩).write_binimage =
      some (u16Bytes (2 % 65536) ++ u16Bytes (1 % 65536) ++ rest) :=
  c9_wrapping_header.1 ⟨⟨1, 2, [[7, 8]]⟩⟩ (by decide) (by decide)

/-- C10: calling `new_from_vector2d` with an empty outer sequence panics
(modelled `none`) in both implementations, because the code unconditionally
indexes `vec2d[0]` to derive the width; there is no clean typed error. -/
theorem c10_empty_input_panics :
    naraw.NARaw.new_from_vector2d [] = none ∧
    ndraw.NDRaw.new_from_vector2d [] = none := by decide

/-- Agreement of the two CFA assignment rules, proved by case analysis on
the parities of the coordinates. -/
theorem bayer_rules_agree (img : RgbImage) (x y : Nat) :
    librs.NARaw.convert_rgb_to_bayer img x y =
      naraw.NARaw.convert_rgb_to_bayer img x y := by
  unfold librs.NARaw.convert_rgb_to_bayer naraw.NARaw.convert_rgb_to_bayer
  rcases Nat.mod_two_eq_zero_or_one x with hx | hx <;>
    rcases Nat.mod_two_eq_zero_or_one y with hy | hy <;>
      simp [hx, hy]

/-- C3 (corrected): the two CFA tiling variants do not assign differently
at any coordinate: for every image and every coordinate the RGGB-quadrant
rule of src/lib.rs and the diagonal-green parity rule of src/naraw.rs read
the same channel value, so the two rules are extensionally equal. -/
theorem c3_rules_extensionally_equal (img : RgbImage) (x y : Nat) :
    librs.NARaw.convert_rgb_to_bayer img x y =
      naraw.NARaw.convert_rgb_to_bayer img x y :=
  bayer_rules_agree img x y

/-- Counterexample to C3 as stated: there exists no coordinate (for any
image) at which the two rules select different RGB channel values. -/
theorem c3_counterexample :
    ¬ ∃ (img : RgbImage) (x y : Nat),
      librs.NARaw.convert_rgb_to_bayer img x y ≠
        naraw.NARaw.convert_rgb_to_bayer img x y := by
  rintro ⟨img, x, y, hne⟩
  exact hne (bayer_rules_agree img x y)

/-- Reading an entry of a matrix built by `from_fn` inside the bounds. -/
theorem naraw.DMatrix.get_from_fn (nrows ncols : Nat) (f : Nat → Nat → Nat)
    (y x : Nat) (hy : y < nrows) (hx : x < ncols) :
    (naraw.DMatrix.from_fn nrows ncols f).get y x = some (f y x) := by
  unfold naraw.DMatrix.from_fn naraw.DMatrix.get
  rw [tab_get?, if_pos hy, Option.some_bind, tab_get?, if_pos hx]

/-- C4: Bayer sampling with the by-quadrant rule (src/lib.rs) on a uniform
RGB image with R=10, G=20, B=30 everywhere yields a buffer whose corner
2x2 cell reads 10, 20, 20, 30 (red, green, green, blue), and whose value at
every in-bounds coordinate equals the value of that 2x2 pattern at
`(x mod 2, y mod 2)`. -/
theorem c4_uniform_bayer (w h : Nat) (hw : 2 ≤ w) (hh : 2 ≤ h) :
    (librs.NARaw.new_from_rgbimage (uniformImg w h)).pix 0 0 = some 10 ∧
    (librs.NARaw.new_from_rgbimage (uniformImg w h)).pix 1 0 = some 20 ∧
    (librs.NARaw.new_from_rgbimage (uniformImg w h)).pix 0 1 = some 20 ∧
    (librs.NARaw.new_from_rgbimage (uniformImg w h)).pix 1 1 = some 30 ∧
    ∀ x y, x < w → y < h →
      (librs.NARaw.new_from_rgbimage (uniformImg w h)).pix x y =
        (librs.NARaw.new_from_rgbimage (uniformImg w h)).pix (x % 2) (y % 2) := by
  have key : ∀ x y, x < w → y < h →
      (librs.NARaw.new_from_rgbimage (uniformImg w h)).pix x y =
        some (librs.NARaw.convert_rgb_to_bayer (uniformImg w h) x y) := by
    intro x y hx hy
    exact naraw.DMatrix.get_from_fn h w _ y x hy hx
  have hbay : ∀ x y : Nat,
      librs.NARaw.convert_rgb_to_bayer (uniformImg w h) x y =
        librs.NARaw.convert_rgb_to_bayer (uniformImg w h) (x % 2) (y % 2) := by
    intro x y
    have hx2 : x % 2 % 2 = x % 2 := by omega
    have hy2 : y % 2 % 2 = y % 2 := by omega
    simp only [librs.NARaw.convert_rgb_to_bayer, uniformImg, hx2, hy2]
  refine ⟨?_, ?_, ?_, ?_, ?_⟩
  · rw [key 0 0 (by omega) (by omega)]; rfl
  · rw [key 1 0 (by omega) (by omega)]; rfl
  · rw [key 0 1 (by omega) (by omega)]; rfl
  · rw [key 1 1 (by omega) (by omega)]; rfl
  · intro x y hx hy
    rw [key x y hx hy, key (x % 2) (y % 2) (by omega) (by omega), hbay x y]

/-- Witness for C4 at the concrete 2x2 uniform image: the red corner reads
10. -/
theorem c4_uniform_bayer_witness :
    (librs.NARaw.new_from_rgbimage (uniformImg 2 2)).pix 0 0 = some 10 :=
  (c4_uniform_bayer 2 2 (by decide) (by decide)).1

/-- On rectangular non-empty input, the NARaw vector2d constructor succeeds
and reproduces the rows. -/
theorem naraw_new_from_vector2d_rect (vec2d : List (List Nat)) (r0 : List Nat)
    (h0 : vec2d.get? 0 = some r0) (hrect : ∀ r ∈ vec2d, r.length = r0.length) :
    naraw.NARaw.new_from_vector2d vec2d = some ⟨⟨vec2d.length, r0.length, vec2d⟩⟩ := by
  unfold naraw.NARaw.new_from_vector2d naraw.NARaw.convert_vector2d_to_dmatrix
  rw [h0]
  simp only [Option.some_bind]
  unfold naraw.DMatrix.from_fnM
  have hopt : optTab vec2d.length (fun y => optTab r0.length
      (fun x => (vec2d.get? y).bind fun r => r.get? x)) = some vec2d := by
    apply optTab_of_eq_get? _ _ _ rfl
    intro y hy
    obtain ⟨row, hrow, hmem⟩ := get?_of_lt vec2d y hy
    rw [hrow]
    exact optTab_of_eq_get? _ _ row (hrect row hmem) (fun x hx => rfl)
  rw [hopt]
  rfl

/-- Length of the flattening of a rectangular list of rows. -/
theorem flatten_length_rect (rows : List (List Nat)) (w : Nat)
    (hrect : ∀ r ∈ rows, r.length = w) : rows.flatten.length = rows.length * w := by
  induction rows with
  | nil => simp
  | cons r rs ih =>
    have h1 := hrect r (by simp)
    have h2 := ih (fun u hu => hrect u (by simp [hu]))
    simp only [List.flatten_cons, List.length_append, List.length_cons, h1, h2]
    rw [Nat.succ_mul, Nat.add_comm]

/-- Reshaping the flattening of a rectangular list of rows gives the rows
back. -/
theorem reshapeRows_flatten (rows : List (List Nat)) (w : Nat)
    (hrect : ∀ r ∈ rows, r.length = w) :
    ndraw.reshapeRows rows.length w rows.flatten = rows := by
  induction rows with
  | nil => rfl
  | cons r rs ih =>
    simp only [List.flatten_cons, List.length_cons, ndraw.reshapeRows]
    rw [List.take_left' (hrect r (by simp)), List.drop_left' (hrect r (by simp)),
      ih (fun u hu => hrect u (by simp [hu]))]

/-- On rectangular non-empty input, the NDRaw vector2d constructor succeeds
and reproduces the rows. -/
theorem ndraw_new_from_vector2d_rect (vec2d : List (List Nat)) (r0 : List Nat)
    (h0 : vec2d.get? 0 = some r0) (hrect : ∀ r ∈ vec2d, r.length = r0.length) :
    ndraw.NDRaw.new_from_vector2d vec2d = some ⟨⟨vec2d.length, r0.length, vec2d⟩⟩ := by
  unfold ndraw.NDRaw.new_from_vector2d ndraw.NDRaw.convert_vector1d_to_ndarray
    ndraw.NDRaw.convert_vector2d_to_vector1d ndraw.Array2.from_shape_vec
  rw [h0]
  simp only [Option.some_bind]
  rw [if_pos (flatten_length_rect vec2d r0.length hrect)]
  rw [reshapeRows_flatten vec2d r0.length hrect]
  rfl

/-- C5: for every non-empty rectangular nested sequence with non-zero row
length, the buffer built by `new_from_vector2d` (in both implementations)
has height the number of rows, width the length of the first row, and its
pixel at (x, y) is entry x of row y, at every valid coordinate. -/
theorem c5_from_rows (rows : List (List Nat)) (hne : rows ≠ [])
    (hrect : ∀ r ∈ rows, r.length = (rows.headD []).length)
    (hw : (rows.headD []).length ≠ 0) :
    (∃ b, naraw.NARaw.new_from_vector2d rows = some b ∧
      b.height = rows.length ∧ b.width = (rows.headD []).length ∧
      ∀ x y, y < rows.length → x < (rows.headD []).length →
        b.pix x y = (rows.get? y).bind fun r => r.get? x) ∧
    (∃ b, ndraw.NDRaw.new_from_vector2d rows = some b ∧
      b.height = rows.length ∧ b.width = (rows.headD []).length ∧
      ∀ x y, y < rows.length → x < (rows.headD []).length →
        b.pix x y = (rows.get? y).bind fun r => r.get? x) := by
  have h0 : rows.get? 0 = some (rows.headD []) := by
    cases rows with
    | nil => exact absurd rfl hne
    | cons r rs => rfl
  constructor
  · exact ⟨⟨⟨rows.length, (rows.headD []).length, rows⟩⟩,
      naraw_new_from_vector2d_rect rows _ h0 hrect, rfl, rfl,
      fun x y _ _ => rfl⟩
  · exact ⟨⟨⟨rows.length, (rows.headD []).length, rows⟩⟩,
      ndraw_new_from_vector2d_rect rows _ h0 hrect, rfl, rfl,
      fun x y _ _ => rfl⟩

/-- Witness for C5 at the concrete rectangular input [[1,2],[3,4],[5,6]]. -/
theorem c5_from_rows_witness :
    (∃ b, naraw.NARaw.new_from_vector2d [[1, 2], [3, 4], [5, 6]] = some b ∧
      b.height = ([[1, 2], [3, 4], [5, 6]] : List (List Nat)).length ∧
      b.width = (([[1, 2], [3, 4], [5, 6]] : List (List Nat)).headD []).length ∧
      ∀ x y, y < ([[1, 2], [3, 4], [5, 6]] : List (List Nat)).length →
        x < (([[1, 2], [3, 4], [5, 6]] : List (List Nat)).headD []).length →
        b.pix x y = (([[1, 2], [3, 4], [5, 6]] : List (List Nat)).get? y).bind
          fun r => r.get? x) ∧
    (∃ b, ndraw.NDRaw.new_from_vector2d [[1, 2], [3, 4], [5, 6]] = some b ∧
      b.height = ([[1, 2], [3, 4], [5, 6]] : List (List Nat)).length ∧
      b.width = (([[1, 2], [3, 4], [5, 6]] : List (List Nat)).headD []).length ∧
      ∀ x y, y < ([[1, 2], [3, 4], [5, 6]] : List (List Nat)).length →
        x < (([[1, 2], [3, 4], [5, 6]] : List (List Nat)).headD []).length →
        b.pix x y = (([[1, 2], [3, 4], [5, 6]] : List (List Nat)).get? y).bind
          fun r => r.get? x) :=
  c5_from_rows [[1, 2], [3, 4], [5, 6]] (by decide) (by decide) (by decide)

/-- Buffers with identical dimension fields and identical rows are
observably equivalent. -/
theorem equivRaw_of_fields (a : naraw.NARaw) (b : ndraw.NDRaw)
    (h1 : a.data.nrows = b.data.nrows) (h2 : a.data.ncols = b.data.ncols)
    (h3 : a.data.rows = b.data.rows) : EquivRaw a b := by
  obtain ⟨⟨n1, c1, r1⟩⟩ := a
  obtain ⟨⟨n2, c2, r2⟩⟩ := b
  cases h1; cases h2; cases h3
  exact ⟨rfl, rfl, fun x y => rfl, rfl⟩

/-- C2 (corrected): the two parallel implementations are observably
equivalent on `new` (for all dimensions), on `new_from_binimage` (for all
byte streams), and on `new_from_vector2d` for all rectangular inputs —
with equivalence covering `width`, `height`, `pix` and `write_binimage`.
(On ragged vector2d input the two implementations genuinely diverge: see
the counterexample.) -/
theorem c2_equivalence :
    (∀ w h, EquivRaw (naraw.NARaw.new w h) (ndraw.NDRaw.new w h)) ∧
    (∀ bytes, EquivRawO (naraw.NARaw.new_from_binimage bytes)
      (ndraw.NDRaw.new_from_binimage bytes)) ∧
    (∀ vec2d : List (List Nat), (∀ r ∈ vec2d, r.length = (vec2d.headD []).length) →
      EquivRawO (naraw.NARaw.new_from_vector2d vec2d)
        (ndraw.NDRaw.new_from_vector2d vec2d)) := by
  refine ⟨?_, ?_, ?_⟩
  · intro w h
    exact equivRaw_of_fields _ _ rfl rfl rfl
  · intro bytes
    unfold naraw.NARaw.new_from_binimage ndraw.NDRaw.new_from_binimage
    rcases hrw : readU16 bytes with _ | pw
    · exact trivial
    · simp only [Option.some_bind]
      rcases hrh : readU16 pw.2 with _ | ph
      · exact trivial
      · simp only [Option.some_bind]
        rcases hrr : readRows ph.1 pw.1 ph.2 with _ | q
        · exact trivial
        · exact equivRaw_of_fields _ _ rfl rfl rfl
  · intro vec2d hrect
    cases vec2d with
    | nil => exact trivial
    | cons r0 rs =>
      rw [naraw_new_from_vector2d_rect (r0 :: rs) r0 rfl hrect,
        ndraw_new_from_vector2d_rect (r0 :: rs) r0 rfl hrect]
      exact equivRaw_of_fields _ _ rfl rfl rfl

/-- Witness for C2 at the concrete rectangular input [[1,2],[3,4]]. -/
theorem c2_equivalence_witness :
    EquivRawO (naraw.NARaw.new_from_vector2d [[1, 2], [3, 4]])
      (ndraw.NDRaw.new_from_vector2d [[1, 2], [3, 4]]) :=
  c2_equivalence.2.2 [[1, 2], [3, 4]] (by decide)

/-- Counterexample to C2 as stated: on the ragged input
[[1,2,3],[4,5,6,7]] the NARaw implementation produces a buffer (silently
truncating the longer row) while the NDRaw implementation panics, so the
two implementations do not produce the same observable result on every
input. -/
theorem c2_counterexample :
    naraw.NARaw.new_from_vector2d [[1, 2, 3], [4, 5, 6, 7]] =
      some ⟨⟨2, 3, [[1, 2, 3], [4, 5, 6]]⟩⟩ ∧
    ndraw.NDRaw.new_from_vector2d [[1, 2, 3], [4, 5, 6, 7]] = none ∧
    ¬ EquivRawO (naraw.NARaw.new_from_vector2d [[1, 2, 3], [4, 5, 6, 7]])
      (ndraw.NDRaw.new_from_vector2d [[1, 2, 3], [4, 5, 6, 7]]) :=
  ⟨by decide, by decide, fun h => h⟩
